import Mathlib

/-!
# Shallow embedding of `src/scraper.py`

The script is a sequential web scraper: a `Scraper` class with two operations
(`get_product_links`, `extract_product_info`) and a `main` driver that pages
through search results and writes newline-delimited JSON records.

Network, HTML parsing and JSON decoding are external collaborators; they are
modelled as oracle values supplied to each operation:
* an HTTP response is a status flag plus a parsed-HTML body;
* the HTML body exposes exactly what the code reads from it: the anchors
  (`soup.find_all`) and the text of the `jsonLD` script block (`soup.find`);
* the JSON facility is abstracted to the decode outcome of a text
  (`JsonText.valid v` / `JsonText.invalid`).

Python exceptions are modelled with `Except Exn`; the driver and the retry
loop return explicit traces (events, sleeps, attempt counts) so that the
observable behaviour of the script is a value the theorems can speak about.
-/

namespace Scrape

/-- JSON values as produced by the JSON decode facility.  Numbers are
rationals (the code only copies them, never computes with them). -/
inductive Json where
  | str (s : String)
  | num (q : Rat)
  | bool (b : Bool)
  | null
  | arr (xs : List Json)
  | obj (fields : List (String × Json))

/-- Python exception classes that can arise in this script.
`proxyError` and `httpError` are the two classes named in the
`except (ProxyError, HTTPError)` clause; everything else is uncaught there. -/
inductive Exn where
  | proxyError
  | httpError
  | connectionError
  | attributeError
  | jsonDecodeError
  | keyError (k : String)
  | typeError
  | indexError
deriving DecidableEq, Repr

/-- The text of a script block, abstracted to its JSON-decode outcome
(the JSON decoder is an external collaborator). -/
inductive JsonText where
  | valid (v : Json)
  | invalid

/-- Model of `json.loads` on a script block's text: a text that does not decode
raises `JSONDecodeError`. -/
def json_loads : JsonText → Except Exn Json
  | .valid v => .ok v
  | .invalid => .error .jsonDecodeError

/-- An anchor element as seen by `soup.find_all("a", ...)`: its CSS classes
and its attribute map. -/
structure Anchor where
  classes : List String
  attrs : List (String × String)

/-- A parsed HTML document, restricted to what the code reads from it:
the anchor elements, and the string content of the first
`<script id="jsonLD">` block if that block exists. -/
structure Html where
  anchors : List Anchor
  jsonLD : Option JsonText

/-- An HTTP response: whether the status is in the success range
(`raise_for_status` raises `HTTPError` iff it is not), and the parsed body. -/
structure Response where
  statusOk : Bool
  body : Html

/-- The outcome of one `requests.get`: a response, or a raised transport
exception (e.g. `ProxyError`, `ConnectionError`). -/
abbrev Net := String → List (String × String) → Except Exn Response

/-- Model of `link["href"]`: subscripting a tag raises `KeyError` when the attribute
is absent. -/
def lookupAttr (link : Anchor) (key : String) : Except Exn String :=
  match link.attrs.lookup key with
  | some v => .ok v
  | none => .error (.keyError key)

/-- Model of `data[0]` on a decoded JSON value (Python indexing semantics:
lists index by position, strings yield a one-character string, dicts raise
`KeyError`, scalars raise `TypeError`). -/
def jsonIndex0 : Json → Except Exn Json
  | .arr (x :: _) => .ok x
  | .arr [] => .error .indexError
  | .str s =>
      match s.data with
      | c :: _ => .ok (.str (String.mk [c]))
      | [] => .error .indexError
  | .obj _ => .error (.keyError "0")
  | _ => .error .typeError

/-- Model of `data[k]` with a string key: only dicts support it (`KeyError` when the
key is absent, `TypeError` on any other value). -/
def jsonGet (v : Json) (k : String) : Except Exn Json :=
  match v with
  | .obj fields =>
      match fields.lookup k with
      | some x => .ok x
      | none => .error (.keyError k)
  | _ => .error .typeError

/-- Python `x == "Product"` on a decoded JSON value: true only for the equal
string, false (never an error) on every other value. -/
def Json.eqStr : Json → String → Bool
  | .str s, t => s == t
  | _, _ => false

/-- The `Scraper` class: construction stores the three arguments. -/
structure Scraper where
  base_url : String
  base_headers : List (String × String)
  output_file : String

/-- The operation `Scraper.get_product_links`: build the search URL, issue one GET (no
retry, nothing caught), select the anchors with class `CGtC98`, and return
their `href` attributes in document order. -/
def Scraper.get_product_links (sc : Scraper) (net : Net)
    (query : String) (page_number : Nat) : Except Exn (List String) := do
  let url := sc.base_url ++ "search?q=" ++ query ++ "&page=" ++ toString page_number
  let response ← net url sc.base_headers
  let links := response.body.anchors.filter (fun a => a.classes.contains "CGtC98")
  links.mapM (fun link => lookupAttr link "href")

/-- A product record as built by `extract_product_info`: the Python dict
literal, kept as its ordered key/value list so that the exact key set and
order are part of the value. -/
abbrev ProductInfo := List (String × Json)

/-- The body of one attempt of the retry loop in `extract_product_info`,
after `response.raise_for_status()` succeeded: find the `jsonLD` script
block (`.string` on a missing tag raises `AttributeError`), decode it, take
element 0, and if its `@type` equals `"Product"` build the six-field dict,
otherwise leave `product_info` as `None`. -/
def parseProduct (body : Html) : Except Exn (Option ProductInfo) := do
  let filtered_data_string ←
    match body.jsonLD with
    | some t => Except.ok t
    | none => Except.error Exn.attributeError
  let data ← jsonIndex0 (← json_loads filtered_data_string)
  let ty ← jsonGet data "@type"
  if ty.eqStr "Product" then
    let name ← jsonGet data "name"
    let brand_name ← jsonGet (← jsonGet data "brand") "name"
    let aggregate_rating ← jsonGet (← jsonGet data "aggregateRating") "ratingValue"
    let review_count ← jsonGet (← jsonGet data "aggregateRating") "reviewCount"
    let price ← jsonGet (← jsonGet data "offers") "price"
    let price_currency ← jsonGet (← jsonGet data "offers") "priceCurrency"
    return some [("product_name", name), ("brand_name", brand_name),
      ("aggregate_rating", aggregate_rating), ("review_count", review_count),
      ("price", price), ("price_currency", price_currency)]
  else
    return none

/-- One whole attempt of the `try` block: GET the product URL (transport
exceptions propagate as `.error`), `raise_for_status`, then parse. -/
def attemptOnce (sc : Scraper) (net : Net) (product_url : String) :
    Except Exn (Option ProductInfo) := do
  let url := sc.base_url ++ product_url
  let response ← net url sc.base_headers
  if response.statusOk then
    parseProduct response.body
  else
    .error .httpError

/-- Whether an exception class is matched by `except (ProxyError, HTTPError)`. -/
def isCaught : Exn → Bool
  | .proxyError => true
  | .httpError => true
  | _ => false

/-- The observable outcome of `extract_product_info`: its return value or
uncaught exception, the sleep durations performed (in order), and how many
fetch attempts were made. -/
structure ExtractTrace where
  result : Except Exn (Option ProductInfo)
  sleeps : List Nat
  attempts : Nat

/-- The `for attempt in range(max_retries)` loop of `extract_product_info`.
`remaining` is how many loop iterations `range` still yields
(`max_retries - attempt`); falling off the loop returns `None`.  The network
oracle is indexed by the attempt number.  On a caught exception with
attempts remaining the loop sleeps `backoff_factor` and doubles it; on the
last attempt it returns `None`; an uncaught exception propagates. -/
def retryLoop (sc : Scraper) (net : Nat → Net) (product_url : String)
    (max_retries : Nat) : Nat → Nat → Nat → ExtractTrace
  | 0, _, _ => { result := .ok none, sleeps := [], attempts := 0 }
  | remaining + 1, attempt, backoff_factor =>
    match attemptOnce sc (net attempt) product_url with
    | .ok product_info => { result := .ok product_info, sleeps := [], attempts := 1 }
    | .error e =>
      if isCaught e then
        if attempt < max_retries - 1 then
          let t := retryLoop sc net product_url max_retries remaining
            (attempt + 1) (backoff_factor * 2)
          { result := t.result, sleeps := backoff_factor :: t.sleeps,
            attempts := t.attempts + 1 }
        else
          { result := .ok none, sleeps := [], attempts := 1 }
      else
        { result := .error e, sleeps := [], attempts := 1 }

/-- The operation `Scraper.extract_product_info`: `max_retries = 5`, initial
`backoff_factor = 3`, starting at attempt 0. -/
def Scraper.extract_product_info (sc : Scraper) (net : Nat → Net)
    (product_url : String) : ExtractTrace :=
  retryLoop sc net product_url 5 5 0 3

/-! ## The crawl driver (`main`) -/

/-- An observable event of the driver's run, in chronological order:
opening a file, a call to `get_product_links` with its arguments, a call to
`extract_product_info` with its argument and result, and a write of one
record (modelling `f.write(json.dumps(product_info) + "\n")`: one
newline-terminated JSON object line). -/
inductive Ev where
  | openFile (name : String) (mode : String)
  | searchCall (query : String) (page : Nat)
  | extractCall (url : String) (result : Except Exn (Option ProductInfo))
  | writeRecord (rec : ProductInfo)

/-- The driver's external world: the network response oracle of the i-th
`get_product_links` call, and, for the j-th `extract_product_info` call, its
attempt-indexed network oracle. -/
structure Env where
  searchNet : Nat → Net
  extractNet : Nat → Nat → Net

/-- How a run ends: falling out of the loop normally, an uncaught exception
propagating, or (a model artifact) the loop-fuel running out. -/
inductive RunExit where
  | normal
  | raised (e : Exn)
  | fuelOut
deriving DecidableEq, Repr

/-- A run's observable behaviour: its events in order and how it ended. -/
structure RunTrace where
  events : List Ev
  exit : RunExit

/-- The inner `for product_link in product_links` loop: extract each link in
order (threading the extract-call counter `j`), write each non-`None`
record immediately, and stop at the first uncaught exception.  Returns the
events, the next counter value, and the uncaught exception if any. -/
def processLinks (sc : Scraper) (env : Env) :
    List String → Nat → List Ev × Nat × Option Exn
  | [], j => ([], j, none)
  | product_link :: rest, j =>
    let t := sc.extract_product_info (env.extractNet j) product_link
    match t.result with
    | .error e => ([.extractCall product_link t.result], j + 1, some e)
    | .ok none =>
      let out := processLinks sc env rest (j + 1)
      (.extractCall product_link t.result :: out.1, out.2.1, out.2.2)
    | .ok (some product_info) =>
      let out := processLinks sc env rest (j + 1)
      (.extractCall product_link t.result :: .writeRecord product_info :: out.1,
        out.2.1, out.2.2)

/-- The `while True` page loop of `main`.  Each iteration first calls
`get_product_links` — with the literal query `"laptop"` and the current
page number, as in the source — then breaks when the link list is empty or
`page_number > 5` (the literal constant 5).  `fuel` bounds the recursion of
the model; `i` and `j` count the search and extract calls made so far. -/
def pageLoop (sc : Scraper) (env : Env) :
    Nat → Nat → Nat → Nat → RunTrace
  | 0, _, _, _ => { events := [], exit := .fuelOut }
  | fuel + 1, page_number, i, j =>
    match sc.get_product_links (env.searchNet i) "laptop" page_number with
    | .error e => { events := [.searchCall "laptop" page_number], exit := .raised e }
    | .ok product_links =>
      if product_links = [] ∨ 5 < page_number then
        { events := [.searchCall "laptop" page_number], exit := .normal }
      else
        let out := processLinks sc env product_links j
        match out.2.2 with
        | some e =>
          { events := .searchCall "laptop" page_number :: out.1, exit := .raised e }
        | none =>
          let t := pageLoop sc env fuel (page_number + 1) (i + 1) out.2.1
          { events := .searchCall "laptop" page_number :: (out.1 ++ t.events),
            exit := t.exit }

/-- Constant `BASE_URL` of `main`. -/
def BASE_URL : String := "https://www.flipkart.com/"

/-- Constant `BASE_HEADERS` of `main`. -/
def BASE_HEADERS : List (String × String) :=
  [("Accept", "*/*"),
   ("Accept-Encoding", "gzip, deflate, br, zstd"),
   ("Accept-Language", "en-US,en;q=0.9,en-IN;q=0.8")]

/-- The `Scraper` instance `main` constructs:
`Scraper(BASE_URL, BASE_HEADERS, "test.json")`. -/
def mainScraper : Scraper :=
  { base_url := BASE_URL, base_headers := BASE_HEADERS, output_file := "test.json" }

/-- The `main` driver.  `args_query` and `args_num_pages` are the parsed
command-line options (`None` when absent); Python truthiness makes the
empty string and 0 fall back to the defaults.  `query` and `num_pages` are
computed exactly as in the source — and, as in the source, neither is used
by the loop.  The output file `"temp.json"` is opened once in write mode,
then the page loop runs from page 1. -/
def main (args_query : Option String) (args_num_pages : Option Int)
    (env : Env) (fuel : Nat) : RunTrace :=
  let query := match args_query with
    | some q => if q = "" then "laptop" else q
    | none => "laptop"
  let num_pages : Int := match args_num_pages with
    | some n => if n = 0 then 5 else n
    | none => 5
  let _ := (query, num_pages)
  let sc := mainScraper
  let t := pageLoop sc env fuel 1 0 0
  { events := .openFile "temp.json" "w" :: t.events, exit := t.exit }

/-! ## Observation helpers used by the statements -/

/-- The page number of a `searchCall` event. -/
def searchPageOf : Ev → Option Nat
  | .searchCall _ p => some p
  | _ => none

/-- The query string of a `searchCall` event. -/
def searchQueryOf : Ev → Option String
  | .searchCall q _ => some q
  | _ => none

/-- Whether an event is a file open. -/
def isOpenEv : Ev → Bool
  | .openFile _ _ => true
  | _ => false

/-- The record of a `writeRecord` event. -/
def writtenRecOf : Ev → Option ProductInfo
  | .writeRecord r => some r
  | _ => none

/-- The page numbers under which extraction calls happen: walk the events
carrying the page of the most recent `searchCall`, and collect that page at
every `extractCall`. -/
def pagesWithExtracts : List Ev → Option Nat → List Nat
  | [], _ => []
  | .searchCall _ p :: rest, _ => pagesWithExtracts rest (some p)
  | .extractCall _ _ :: rest, some p => p :: pagesWithExtracts rest (some p)
  | .extractCall _ _ :: rest, none => pagesWithExtracts rest none
  | _ :: rest, cur => pagesWithExtracts rest cur

/-- Well-formed write discipline of an event list: every extraction that
returns a record is immediately followed by exactly one write of that very
record, and a write occurs in no other position. -/
def Imm : List Ev → Prop
  | [] => True
  | .extractCall _ (.ok (some rec)) :: .writeRecord rec2 :: rest => rec2 = rec ∧ Imm rest
  | .extractCall _ (.ok (some _)) :: _ => False
  | .writeRecord _ :: _ => False
  | _ :: rest => Imm rest

/-- The geometric backoff schedule: `k` sleep durations starting at `b` and
doubling. -/
def geomSleeps (b : Nat) : Nat → List Nat
  | 0 => []
  | k + 1 => b :: geomSleeps (b * 2) k

/-! ## Concrete fixtures (used by the witnesses) -/

/-- A network where every GET raises `ProxyError`. -/
def netProxyW : Nat → Net := fun _ _ _ => .error .proxyError

/-- A network where every GET succeeds but the `jsonLD` block is not valid
JSON. -/
def netBadW : Nat → Net := fun _ _ _ => .ok ⟨true, ⟨[], some .invalid⟩⟩

/-- A structured-data payload of type `"Product"` with all required fields. -/
def dProdW : Json :=
  .obj [("@type", .str "Product"), ("name", .str "X"),
    ("brand", .obj [("name", .str "B")]),
    ("aggregateRating", .obj [("ratingValue", .num 4), ("reviewCount", .num 100)]),
    ("offers", .obj [("price", .num 999), ("priceCurrency", .str "INR")])]

/-- The record `extract_product_info` builds from `dProdW`. -/
def recW : ProductInfo :=
  [("product_name", .str "X"), ("brand_name", .str "B"),
    ("aggregate_rating", .num 4), ("review_count", .num 100),
    ("price", .num 999), ("price_currency", .str "INR")]

/-- A successful response whose `jsonLD` block decodes to `[v]`. -/
def respOkW (v : Json) : Response := ⟨true, ⟨[], some (.valid (.arr [v]))⟩⟩

/-- A network where every GET returns the `dProdW` product page. -/
def netOkW : Nat → Net := fun _ _ _ => .ok (respOkW dProdW)

/-- A network where every GET returns a page whose payload type is not
`"Product"`. -/
def netNonProdW : Nat → Net := fun _ _ _ => .ok (respOkW (.obj [("@type", .str "Thing")]))

/-- A network whose first two attempts raise `ProxyError` and whose later
attempts return the `dProdW` product page. -/
def netMixW : Nat → Net :=
  fun k => if k < 2 then netProxyW k else netOkW k

/-- An anchor of the result-list class with an `href`. -/
def anchorW : Anchor := ⟨["CGtC98"], [("href", "/p")]⟩

/-- A world where every search page is empty. -/
def envEmptyW : Env :=
  { searchNet := fun _ _ _ => .ok ⟨true, ⟨[], none⟩⟩
    extractNet := fun _ => netOkW }

/-- A world where every search page has one product link and every detail
page is the `dProdW` product page. -/
def envFullW : Env :=
  { searchNet := fun _ _ _ => .ok ⟨true, ⟨[anchorW], none⟩⟩
    extractNet := fun _ => netOkW }

/-! ## Basic reduction lemmas -/

theorem exn_bind_ok {α β : Type} (a : α) (f : α → Except Exn β) :
    (Except.ok a >>= f) = f a := rfl

theorem exn_bind_error {α β : Type} (e : Exn) (f : α → Except Exn β) :
    ((Except.error e : Except Exn α) >>= f) = Except.error e := rfl

theorem exn_pure {α : Type} (a : α) : (pure a : Except Exn α) = Except.ok a := rfl

theorem exn_map_ok {α β : Type} (a : α) (f : α → β) :
    (f <$> (Except.ok a : Except Exn α)) = Except.ok (f a) := rfl

theorem exn_map_error {α β : Type} (e : Exn) (f : α → β) :
    (f <$> (Except.error e : Except Exn α)) = Except.error e := rfl

/-! ## Lemmas about the retry loop -/

/-- A caught exception class never appears in the loop's result. -/
theorem retryLoop_result_not_caught (sc : Scraper) (net : Nat → Net) (url : String) :
    ∀ remaining attempt backoff e,
      (retryLoop sc net url 5 remaining attempt backoff).result = .error e →
      isCaught e = false := by
  intro remaining
  induction remaining with
  | zero => intro attempt backoff e h; simp [retryLoop] at h
  | succ r ih =>
    intro attempt backoff e h
    rw [retryLoop] at h
    rcases ha : attemptOnce sc (net attempt) url with e0 | v
    · rw [ha] at h
      dsimp only at h
      by_cases hc : isCaught e0
      · rw [if_pos hc] at h
        by_cases hlt : attempt < 5 - 1
        · rw [if_pos hlt] at h
          exact ih (attempt + 1) (backoff * 2) e h
        · rw [if_neg hlt] at h
          simp at h
      · rw [if_neg hc] at h
        simp only [ExtractTrace.mk.injEq] at h
        obtain rfl : e0 = e := by
          have := h
          injection this
        simpa using hc
    · rw [ha] at h
      simp at h

/-- The loop makes at most `remaining` fetch attempts. -/
theorem retryLoop_attempts_le (sc : Scraper) (net : Nat → Net) (url : String) :
    ∀ remaining attempt backoff,
      (retryLoop sc net url 5 remaining attempt backoff).attempts ≤ remaining := by
  intro remaining
  induction remaining with
  | zero => intro attempt backoff; simp [retryLoop]
  | succ r ih =>
    intro attempt backoff
    rw [retryLoop]
    rcases ha : attemptOnce sc (net attempt) url with e0 | v
    · dsimp only
      by_cases hc : isCaught e0
      · rw [if_pos hc]
        by_cases hlt : attempt < 5 - 1
        · rw [if_pos hlt]
          have := ih (attempt + 1) (backoff * 2)
          simpa using Nat.succ_le_succ this
        · rw [if_neg hlt]; simp
      · rw [if_neg hc]; simp
    · simp

/-- When every attempt fails with a caught class, the loop returns `None`. -/
theorem retryLoop_all_caught_fail (sc : Scraper) (net : Nat → Net) (url : String) :
    ∀ remaining attempt backoff, attempt + remaining = 5 →
      (∀ k, k < 5 → ∃ e, attemptOnce sc (net k) url = .error e ∧ isCaught e = true) →
      (retryLoop sc net url 5 remaining attempt backoff).result = .ok none := by
  intro remaining
  induction remaining with
  | zero => intro attempt backoff _ _; simp [retryLoop]
  | succ r ih =>
    intro attempt backoff hsum hall
    obtain ⟨e, he, hc⟩ := hall attempt (by omega)
    rw [retryLoop, he]
    dsimp only
    rw [if_pos hc]
    by_cases hlt : attempt < 5 - 1
    · rw [if_pos hlt]
      exact ih (attempt + 1) (backoff * 2) (by omega) hall
    · rw [if_neg hlt]

/-- When the first attempt returns, the loop stops at once. -/
theorem retryLoop_first_ok (sc : Scraper) (net : Nat → Net) (url : String)
    (max_retries remaining attempt backoff : Nat) (res : Option ProductInfo)
    (h : attemptOnce sc (net attempt) url = .ok res) :
    retryLoop sc net url max_retries (remaining + 1) attempt backoff =
      { result := .ok res, sleeps := [], attempts := 1 } := by
  rw [retryLoop, h]

/-- Exactly `k` caught failures followed by a success: the loop returns the success
after `k` doubling sleeps. -/
theorem retryLoop_k_fail_then_ok (sc : Scraper) (net : Nat → Net) (url : String) :
    ∀ k remaining attempt backoff (res : Option ProductInfo),
      k < remaining → attempt + remaining = 5 →
      (∀ j, j < k → ∃ e, attemptOnce sc (net (attempt + j)) url = .error e ∧
        isCaught e = true) →
      attemptOnce sc (net (attempt + k)) url = .ok res →
      retryLoop sc net url 5 remaining attempt backoff =
        { result := .ok res, sleeps := geomSleeps backoff k, attempts := k + 1 } := by
  intro k
  induction k with
  | zero =>
    intro remaining attempt backoff res hk _ _ hok
    obtain ⟨r, rfl⟩ : ∃ r, remaining = r + 1 := ⟨remaining - 1, by omega⟩
    rw [Nat.add_zero] at hok
    rw [retryLoop, hok]
    rfl
  | succ k ih =>
    intro remaining attempt backoff res hk hsum hfail hok
    obtain ⟨r, rfl⟩ : ∃ r, remaining = r + 1 := ⟨remaining - 1, by omega⟩
    obtain ⟨e, he, hc⟩ := hfail 0 (by omega)
    rw [Nat.add_zero] at he
    rw [retryLoop, he]
    dsimp only
    rw [if_pos hc, if_pos (show attempt < 5 - 1 by omega)]
    have harg : ∀ j, j < k → ∃ e2, attemptOnce sc (net (attempt + 1 + j)) url = .error e2 ∧
        isCaught e2 = true := by
      intro j hj
      have := hfail (j + 1) (by omega)
      rwa [show attempt + (j + 1) = attempt + 1 + j by omega] at this
    have hok2 : attemptOnce sc (net (attempt + 1 + k)) url = .ok res := by
      rwa [show attempt + (k + 1) = attempt + 1 + k by omega] at hok
    rw [ih r (attempt + 1) (backoff * 2) res (by omega) (by omega) harg hok2]
    rfl

/-! ## Claims about `extract_product_info` -/

/-- C1: the retry loop of `extract_product_info` catches only the two
transient-failure classes (`ProxyError`, `HTTPError`): an exception class it
catches never escapes the call, and any exception of an uncaught class
raised during an attempt — at any point of the loop — immediately becomes
the call's outcome. -/
theorem extract_catches_only_transient (sc : Scraper) (net : Nat → Net)
    (product_url : String) :
    (∀ e, (sc.extract_product_info net product_url).result = .error e →
      isCaught e = false)
    ∧ (∀ remaining attempt backoff e, isCaught e = false →
        attemptOnce sc (net attempt) product_url = .error e →
        (retryLoop sc net product_url 5 (remaining + 1) attempt backoff).result =
          .error e) := by
  constructor
  · intro e h
    exact retryLoop_result_not_caught sc net product_url 5 0 3 e h
  · intro remaining attempt backoff e hc he
    rw [retryLoop, he]
    dsimp only
    rw [if_neg (by simp [hc])]

/-- Witness for C1: a malformed structured-data block raises
`JSONDecodeError`, which is not caught and terminates the call on the
first attempt. -/
theorem extract_catches_only_transient_witness :
    isCaught .jsonDecodeError = false
    ∧ (retryLoop mainScraper netBadW "/x" 5 (4 + 1) 0 3).result =
        .error .jsonDecodeError :=
  ⟨rfl, (extract_catches_only_transient mainScraper netBadW "/x").2 4 0 3
    .jsonDecodeError rfl rfl⟩

/-- C4: `extract_product_info` makes at most 5 fetch attempts, and when all
5 attempts fail with a transient transport failure it returns `None`
without raising. -/
theorem extract_attempt_budget (sc : Scraper) (net : Nat → Net)
    (product_url : String) :
    ((sc.extract_product_info net product_url).attempts ≤ 5)
    ∧ ((∀ k, k < 5 → ∃ e, attemptOnce sc (net k) product_url = .error e ∧
          isCaught e = true) →
        (sc.extract_product_info net product_url).result = .ok none) :=
  ⟨retryLoop_attempts_le sc net product_url 5 0 3,
   fun h => retryLoop_all_caught_fail sc net product_url 5 0 3 rfl h⟩

/-- Witness for C4: on a network that always raises `ProxyError`, the call
makes at most 5 attempts and returns `None`. -/
theorem extract_attempt_budget_witness :
    (mainScraper.extract_product_info netProxyW "/x").attempts ≤ 5
    ∧ (mainScraper.extract_product_info netProxyW "/x").result = .ok none :=
  ⟨(extract_attempt_budget mainScraper netProxyW "/x").1,
   (extract_attempt_budget mainScraper netProxyW "/x").2
     (fun _ _ => ⟨.proxyError, rfl, rfl⟩)⟩

/-- C5: when the first `k` attempts (1 ≤ k ≤ 4) fail transiently and
attempt `k+1` succeeds with a record, the call returns that record after
exactly `k` sleeps whose durations are the first `k` terms of
3, 6, 12, 24. -/
theorem extract_backoff_sequence (sc : Scraper) (net : Nat → Net)
    (product_url : String) :
    ∀ k (rec : ProductInfo), 1 ≤ k → k ≤ 4 →
      (∀ j, j < k → ∃ e, attemptOnce sc (net j) product_url = .error e ∧
        isCaught e = true) →
      attemptOnce sc (net k) product_url = .ok (some rec) →
      ((sc.extract_product_info net product_url).result = .ok (some rec)
       ∧ (sc.extract_product_info net product_url).sleeps =
           List.take k [3, 6, 12, 24]
       ∧ (sc.extract_product_info net product_url).sleeps.length = k) := by
  intro k rec h1 h4 hfail hok
  have hmain : sc.extract_product_info net product_url =
      { result := .ok (some rec), sleeps := geomSleeps 3 k, attempts := k + 1 } :=
    retryLoop_k_fail_then_ok sc net product_url k 5 0 3 (some rec) (by omega) (by omega)
      (fun j hj => by simpa using hfail j hj) (by simpa using hok)
  rw [hmain]
  refine ⟨rfl, ?_, ?_⟩
  · interval_cases k <;> rfl
  · interval_cases k <;> rfl

/-- Witness for C5: two proxy failures then a product page: the call
returns the record after sleeping 3 then 6. -/
theorem extract_backoff_sequence_witness :
    (mainScraper.extract_product_info netMixW "/x").result = .ok (some recW)
    ∧ (mainScraper.extract_product_info netMixW "/x").sleeps = [3, 6] := by
  have h := extract_backoff_sequence mainScraper netMixW "/x" 2 recW (by omega) (by omega)
    (fun j hj => ⟨.proxyError, by interval_cases j <;> rfl, rfl⟩) rfl
  exact ⟨h.1, by rw [h.2.1]; rfl⟩

/-- C3: on a successful detail-page response whose structured-data block
decodes to a JSON array and whose first element declares a type: a type
other than `"Product"` yields `None`, and type `"Product"` with all
required fields present yields exactly the six-key record with the stated
field mapping. -/
theorem extract_product_mapping (sc : Scraper) (net : Nat → Net) (product_url : String)
    (r : Response) (d : Json) (tl : List Json) (ty : Json)
    (hnet : net 0 (sc.base_url ++ product_url) sc.base_headers = .ok r)
    (hst : r.statusOk = true)
    (hld : r.body.jsonLD = some (.valid (.arr (d :: tl))))
    (hty : jsonGet d "@type" = .ok ty) :
    (ty.eqStr "Product" = false →
      (sc.extract_product_info net product_url).result = .ok none)
    ∧ (∀ nm b bn ar rv rc off p pc,
        ty = .str "Product" →
        jsonGet d "name" = .ok nm →
        jsonGet d "brand" = .ok b → jsonGet b "name" = .ok bn →
        jsonGet d "aggregateRating" = .ok ar →
        jsonGet ar "ratingValue" = .ok rv → jsonGet ar "reviewCount" = .ok rc →
        jsonGet d "offers" = .ok off →
        jsonGet off "price" = .ok p → jsonGet off "priceCurrency" = .ok pc →
        (sc.extract_product_info net product_url).result =
          .ok (some [("product_name", nm), ("brand_name", bn),
            ("aggregate_rating", rv), ("review_count", rc),
            ("price", p), ("price_currency", pc)])) := by
  constructor
  · intro hfalse
    have hao : attemptOnce sc (net 0) product_url = .ok none := by
      simp [attemptOnce, parseProduct, hnet, hst, hld, hty, json_loads, jsonIndex0,
        exn_bind_ok, exn_bind_error, exn_pure, exn_map_ok, exn_map_error, hfalse]
    exact congrArg ExtractTrace.result
      (retryLoop_first_ok sc net product_url 5 4 0 3 none hao)
  · intro nm b bn ar rv rc off p pc htyP hnm hb hbn har hrv hrc hoff hp hpc
    subst htyP
    have hao : attemptOnce sc (net 0) product_url =
        .ok (some [("product_name", nm), ("brand_name", bn),
          ("aggregate_rating", rv), ("review_count", rc),
          ("price", p), ("price_currency", pc)]) := by
      simp [attemptOnce, parseProduct, hnet, hst, hld, hty, json_loads, jsonIndex0,
        exn_bind_ok, exn_bind_error, exn_pure, exn_map_ok, exn_map_error,
        Json.eqStr, hnm, hb, hbn, har, hrv, hrc, hoff, hp, hpc]
    exact congrArg ExtractTrace.result
      (retryLoop_first_ok sc net product_url 5 4 0 3 _ hao)

/-- Witness for C3: a concrete non-`"Product"` page yields `None`, and a
concrete `"Product"` page yields exactly the six mapped fields. -/
theorem extract_product_mapping_witness :
    (mainScraper.extract_product_info netNonProdW "/x").result = .ok none
    ∧ (mainScraper.extract_product_info netOkW "/x").result = .ok (some recW) :=
  ⟨(extract_product_mapping mainScraper netNonProdW "/x" (respOkW (.obj [("@type", .str "Thing")]))
      (.obj [("@type", .str "Thing")]) [] (.str "Thing") rfl rfl rfl rfl).1 rfl,
   (extract_product_mapping mainScraper netOkW "/x" (respOkW dProdW) dProdW [] (.str "Product")
      rfl rfl rfl rfl).2 (.str "X") (.obj [("name", .str "B")]) (.str "B")
      (.obj [("ratingValue", .num 4), ("reviewCount", .num 100)]) (.num 4) (.num 100)
      (.obj [("price", .num 999), ("priceCurrency", .str "INR")]) (.num 999) (.str "INR")
      rfl rfl rfl rfl rfl rfl rfl rfl rfl rfl⟩

/-! ## Claims about `get_product_links` -/

/-- When every selected anchor has an `href`, the comprehension returns
those `href` values in document order. -/
theorem mapM_lookupAttr (l : List Anchor)
    (h : ∀ a ∈ l, (a.attrs.lookup "href").isSome) :
    l.mapM (fun link => lookupAttr link "href") =
      .ok (l.filterMap (fun a => a.attrs.lookup "href")) := by
  induction l with
  | nil => rfl
  | cons a l ih =>
    obtain ⟨v, hv⟩ := Option.isSome_iff_exists.mp (h a (by simp))
    have hla : lookupAttr a "href" = .ok v := by unfold lookupAttr; rw [hv]
    rw [List.mapM_cons, hla, exn_bind_ok, ih (fun x hx => h x (by simp [hx])),
      exn_bind_ok, exn_pure]
    simp [List.filterMap_cons, hv]

/-- C7: `get_product_links` performs a single GET with no retry and catches
nothing: a transport error propagates as the call's outcome, and a
response yields the `href` attributes of the anchors of class `CGtC98` in
document order — the empty sequence when no anchor matches. -/
theorem get_product_links_no_retry (sc : Scraper) (net : Net) (query : String)
    (page_number : Nat) :
    (∀ e, net (sc.base_url ++ "search?q=" ++ query ++ "&page=" ++ toString page_number)
        sc.base_headers = .error e →
      sc.get_product_links net query page_number = .error e)
    ∧ (∀ r, net (sc.base_url ++ "search?q=" ++ query ++ "&page=" ++ toString page_number)
        sc.base_headers = .ok r →
        (r.body.anchors.filter (fun a => a.classes.contains "CGtC98") = [] →
          sc.get_product_links net query page_number = .ok [])
        ∧ ((∀ a ∈ r.body.anchors.filter (fun a => a.classes.contains "CGtC98"),
              (a.attrs.lookup "href").isSome) →
            sc.get_product_links net query page_number =
              .ok ((r.body.anchors.filter
                  (fun a => a.classes.contains "CGtC98")).filterMap
                (fun a => a.attrs.lookup "href")))) := by
  constructor
  · intro e he
    simp [Scraper.get_product_links, he, exn_bind_error]
  · intro r hr
    constructor
    · intro hempty
      simp only [Scraper.get_product_links, hr, exn_bind_ok]
      rw [hempty]
      rfl
    · intro hall
      simp only [Scraper.get_product_links, hr, exn_bind_ok]
      exact mapM_lookupAttr _ hall

/-- Witness for C7: a proxy failure propagates unchanged; a page with no
matching anchor yields `[]`; a page with one matching anchor yields its
`href`. -/
theorem get_product_links_no_retry_witness :
    mainScraper.get_product_links (netProxyW 0) "laptop" 1 = .error .proxyError
    ∧ mainScraper.get_product_links (envEmptyW.searchNet 0) "laptop" 1 = .ok []
    ∧ mainScraper.get_product_links (envFullW.searchNet 0) "laptop" 1 = .ok ["/p"] :=
  ⟨(get_product_links_no_retry mainScraper (netProxyW 0) "laptop" 1).1 .proxyError rfl,
   ((get_product_links_no_retry mainScraper (envEmptyW.searchNet 0) "laptop" 1).2
      ⟨true, ⟨[], none⟩⟩ rfl).1 rfl,
   ((get_product_links_no_retry mainScraper (envFullW.searchNet 0) "laptop" 1).2
      ⟨true, ⟨[anchorW], none⟩⟩ rfl).2 (by
        intro a ha
        have : a = anchorW := by simpa [anchorW] using ha
        subst this
        rfl)⟩

/-! ## Lemmas about the driver -/

/-- Unfolding `main`: one `openFile` then the page loop from page 1. -/
theorem main_unfold (aq : Option String) (an : Option Int) (env : Env) (fuel : Nat) :
    main aq an env fuel =
      { events := .openFile "temp.json" "w" :: (pageLoop mainScraper env fuel 1 0 0).events,
        exit := (pageLoop mainScraper env fuel 1 0 0).exit } := rfl

/-- The inner loop emits only extraction and write events. -/
theorem processLinks_shape (sc : Scraper) (env : Env) :
    ∀ links j, ∀ e ∈ (processLinks sc env links j).1,
      searchQueryOf e = none ∧ searchPageOf e = none ∧ isOpenEv e = false := by
  intro links
  induction links with
  | nil => intro j e he; simp [processLinks] at he
  | cons link rest ih =>
    intro j e he
    rw [processLinks] at he
    rcases hr : (sc.extract_product_info (env.extractNet j) link).result with e0 | v
    · rw [hr] at he
      dsimp only at he
      simp at he
      subst he
      exact ⟨rfl, rfl, rfl⟩
    · rw [hr] at he
      dsimp only at he
      cases v with
      | none =>
        simp at he
        rcases he with rfl | he
        · exact ⟨rfl, rfl, rfl⟩
        · exact ih (j + 1) e he
      | some rec =>
        simp at he
        rcases he with rfl | rfl | he
        · exact ⟨rfl, rfl, rfl⟩
        · exact ⟨rfl, rfl, rfl⟩
        · exact ih (j + 1) e he

/-- The inner loop preserves the write discipline. -/
theorem processLinks_Imm (sc : Scraper) (env : Env) :
    ∀ links j tail, Imm tail → Imm ((processLinks sc env links j).1 ++ tail) := by
  intro links
  induction links with
  | nil => intro j tail ht; exact ht
  | cons link rest ih =>
    intro j tail ht
    rw [processLinks]
    dsimp only
    rcases hr : (sc.extract_product_info (env.extractNet j) link).result with e0 | v
    · exact ht
    · cases v with
      | none => exact ih (j + 1) tail ht
      | some rec => exact ⟨rfl, ih (j + 1) tail ht⟩

/-- When no extraction raises, the inner loop reports no exception. -/
theorem processLinks_ex_none (sc : Scraper) (env : Env)
    (H : ∀ j url, ∃ v, (sc.extract_product_info (env.extractNet j) url).result = .ok v) :
    ∀ links j, (processLinks sc env links j).2.2 = none := by
  intro links
  induction links with
  | nil => intro j; rfl
  | cons link rest ih =>
    intro j
    obtain ⟨v, hv⟩ := H j link
    rw [processLinks]
    dsimp only
    rw [hv]
    cases v with
    | none => exact ih (j + 1)
    | some rec => exact ih (j + 1)

/-- Every iteration of the page loop opens with its search call. -/
theorem pageLoop_events_head (sc : Scraper) (env : Env) (fuel page i j : Nat) :
    (pageLoop sc env (fuel + 1) page i j).events.head? =
      some (.searchCall "laptop" page) := by
  rw [pageLoop]
  rcases h : sc.get_product_links (env.searchNet i) "laptop" page with e | links
  · rfl
  · try dsimp only
    by_cases hc : links = [] ∨ 5 < page
    · rw [if_pos hc]
      rfl
    · rw [if_neg hc]
      try dsimp only
      rcases hex : (processLinks sc env links j).2.2 with _ | e0 <;> rfl

/-- The page loop never opens a file. -/
theorem pageLoop_no_open (sc : Scraper) (env : Env) :
    ∀ fuel page i j, ∀ e ∈ (pageLoop sc env fuel page i j).events,
      isOpenEv e = false := by
  intro fuel
  induction fuel with
  | zero => intro page i j e he; simp [pageLoop] at he
  | succ f ih =>
    intro page i j e he
    rw [pageLoop] at he
    rcases h : sc.get_product_links (env.searchNet i) "laptop" page with e0 | links
    · rw [h] at he
      simp at he
      subst he
      rfl
    · rw [h] at he
      try dsimp only at he
      by_cases hc : links = [] ∨ 5 < page
      · rw [if_pos hc] at he
        simp at he
        subst he
        rfl
      · rw [if_neg hc] at he
        try dsimp only at he
        rcases hex : (processLinks sc env links j).2.2 with _ | e0
        · rw [hex] at he
          try dsimp only at he
          rcases List.mem_cons.mp he with rfl | he
          · rfl
          · rcases List.mem_append.mp he with he2 | he2
            · exact (processLinks_shape sc env links j e he2).2.2
            · exact ih (page + 1) (i + 1) (processLinks sc env links j).2.1 e he2
        · rw [hex] at he
          try dsimp only at he
          rcases List.mem_cons.mp he with rfl | he
          · rfl
          · exact (processLinks_shape sc env links j e he).2.2

/-- All search calls of the page loop use the literal query `"laptop"`. -/
theorem pageLoop_queries (sc : Scraper) (env : Env) :
    ∀ fuel page i j q,
      q ∈ (pageLoop sc env fuel page i j).events.filterMap searchQueryOf →
      q = "laptop" := by
  intro fuel
  induction fuel with
  | zero => intro page i j q hq; simp [pageLoop] at hq
  | succ f ih =>
    intro page i j q hq
    rw [pageLoop] at hq
    rcases h : sc.get_product_links (env.searchNet i) "laptop" page with e0 | links
    · rw [h] at hq
      simp [searchQueryOf] at hq
      exact hq
    · rw [h] at hq
      try dsimp only at hq
      by_cases hc : links = [] ∨ 5 < page
      · rw [if_pos hc] at hq
        simp [searchQueryOf] at hq
        exact hq
      · rw [if_neg hc] at hq
        try dsimp only at hq
        have hflat : ∀ e ∈ (processLinks sc env links j).1, searchQueryOf e = none :=
          fun e he => (processLinks_shape sc env links j e he).1
        rcases hex : (processLinks sc env links j).2.2 with _ | e0
        · rw [hex] at hq
          try dsimp only at hq
          rw [List.filterMap_cons] at hq
          dsimp only [searchQueryOf] at hq
          rw [List.filterMap_append, List.filterMap_eq_nil_iff.mpr hflat,
            List.nil_append] at hq
          rcases List.mem_cons.mp hq with rfl | hq
          · rfl
          · exact ih (page + 1) (i + 1) (processLinks sc env links j).2.1 q hq
        · rw [hex] at hq
          try dsimp only at hq
          rw [List.filterMap_cons] at hq
          dsimp only [searchQueryOf] at hq
          rw [List.filterMap_eq_nil_iff.mpr hflat] at hq
          rcases List.mem_cons.mp hq with rfl | hq
          · rfl
          · simp at hq

/-- The page loop satisfies the write discipline. -/
theorem pageLoop_Imm (sc : Scraper) (env : Env) :
    ∀ fuel page i j, Imm (pageLoop sc env fuel page i j).events := by
  intro fuel
  induction fuel with
  | zero => intro page i j; trivial
  | succ f ih =>
    intro page i j
    rw [pageLoop]
    rcases h : sc.get_product_links (env.searchNet i) "laptop" page with e0 | links
    · trivial
    · try dsimp only
      by_cases hc : links = [] ∨ 5 < page
      · rw [if_pos hc]
        trivial
      · rw [if_neg hc]
        try dsimp only
        rcases hex : (processLinks sc env links j).2.2 with _ | e0
        · show Imm ((processLinks sc env links j).1 ++
            (pageLoop sc env f (page + 1) (i + 1) (processLinks sc env links j).2.1).events)
          exact processLinks_Imm sc env links j _
            (ih (page + 1) (i + 1) (processLinks sc env links j).2.1)
        · show Imm ((processLinks sc env links j).1)
          have := processLinks_Imm sc env links j [] trivial
          rwa [List.append_nil] at this

/-- With at least `7 - page` fuel the loop cannot run out of fuel. -/
theorem pageLoop_exit_ne (sc : Scraper) (env : Env) :
    ∀ fuel page i j, 1 ≤ fuel → 7 ≤ fuel + page →
      (pageLoop sc env fuel page i j).exit ≠ .fuelOut := by
  intro fuel
  induction fuel with
  | zero => intro page i j h1 _; omega
  | succ f ih =>
    intro page i j _ h7
    rw [pageLoop]
    rcases h : sc.get_product_links (env.searchNet i) "laptop" page with e0 | links
    · intro hcon
      exact RunExit.noConfusion hcon
    · try dsimp only
      by_cases hc : links = [] ∨ 5 < page
      · rw [if_pos hc]
        intro hcon
        exact RunExit.noConfusion hcon
      · rw [if_neg hc]
        try dsimp only
        have hp5 : page ≤ 5 := by
          rcases not_or.mp hc with ⟨_, h2⟩
          omega
        rcases hex : (processLinks sc env links j).2.2 with _ | e0
        · exact ih (page + 1) (i + 1) (processLinks sc env links j).2.1
            (by omega) (by omega)
        · intro hcon
          exact RunExit.noConfusion hcon

/-- On an empty link sequence the loop stops at once, normally. -/
theorem pageLoop_empty_stop (sc : Scraper) (env : Env) (fuel page i j : Nat)
    (h : sc.get_product_links (env.searchNet i) "laptop" page = .ok []) :
    pageLoop sc env (fuel + 1) page i j =
      { events := [.searchCall "laptop" page], exit := .normal } := by
  rw [pageLoop, h]
  try dsimp only
  rw [if_pos (Or.inl rfl)]

/-- Walking extraction-and-write events under a current page only collects
that page. -/
theorem pagesWithExtracts_append_mem :
    ∀ (evs rest : List Ev) (p q : Nat),
      (∀ e ∈ evs, searchQueryOf e = none) →
      q ∈ pagesWithExtracts (evs ++ rest) (some p) →
      q = p ∨ q ∈ pagesWithExtracts rest (some p) := by
  intro evs
  induction evs with
  | nil => intro rest p q _ h; exact Or.inr h
  | cons e evs ih =>
    intro rest p q hn h
    cases e with
    | searchCall qq pp =>
      have := hn _ (List.mem_cons_self _ _)
      simp [searchQueryOf] at this
    | openFile nm md =>
      exact ih rest p q (fun x hx => hn x (List.mem_cons_of_mem _ hx)) h
    | writeRecord rc =>
      exact ih rest p q (fun x hx => hn x (List.mem_cons_of_mem _ hx)) h
    | extractCall u res =>
      replace h : q ∈ p :: pagesWithExtracts (evs ++ rest) (some p) := h
      rcases List.mem_cons.mp h with rfl | h2
      · exact Or.inl rfl
      · exact Or.elim (ih rest p q (fun x hx => hn x (List.mem_cons_of_mem _ hx)) h2)
          Or.inl Or.inr

/-- Every page under which an extraction happens lies between the starting
page and 5. -/
theorem pageLoop_pages_bound (sc : Scraper) (env : Env) :
    ∀ fuel page i j cur q, 1 ≤ page →
      q ∈ pagesWithExtracts (pageLoop sc env fuel page i j).events cur →
      page ≤ q ∧ q ≤ 5 := by
  intro fuel
  induction fuel with
  | zero => intro page i j cur q _ hq; simp [pageLoop, pagesWithExtracts] at hq
  | succ f ih =>
    intro page i j cur q hp hq
    rw [pageLoop] at hq
    rcases h : sc.get_product_links (env.searchNet i) "laptop" page with e0 | links
    · rw [h] at hq
      simp [pagesWithExtracts] at hq
    · rw [h] at hq
      try dsimp only at hq
      by_cases hc : links = [] ∨ 5 < page
      · rw [if_pos hc] at hq
        simp [pagesWithExtracts] at hq
      · rw [if_neg hc] at hq
        try dsimp only at hq
        have hp5 : page ≤ 5 := by
          rcases not_or.mp hc with ⟨_, h2⟩
          omega
        rcases hex : (processLinks sc env links j).2.2 with _ | e0
        · rw [hex] at hq
          try dsimp only at hq
          replace hq : q ∈ pagesWithExtracts ((processLinks sc env links j).1 ++
              (pageLoop sc env f (page + 1) (i + 1)
                (processLinks sc env links j).2.1).events) (some page) := hq
          rcases pagesWithExtracts_append_mem _ _ page q
              (fun e he => (processLinks_shape sc env links j e he).1) hq with rfl | hq2
          · exact ⟨le_refl _, hp5⟩
          · have := ih (page + 1) (i + 1) (processLinks sc env links j).2.1
              (some page) q (by omega) hq2
            exact ⟨by omega, this.2⟩
        · rw [hex] at hq
          try dsimp only at hq
          replace hq : q ∈ pagesWithExtracts
              ((processLinks sc env links j).1 ++ []) (some page) := by
            rw [List.append_nil]
            exact hq
          rcases pagesWithExtracts_append_mem _ _ page q
              (fun e he => (processLinks_shape sc env links j e he).1) hq with rfl | hq2
          · exact ⟨le_refl _, hp5⟩
          · simp [pagesWithExtracts] at hq2

/-- The retry loop never reads `output_file`. -/
theorem retryLoop_output_irrel (b : String) (hs : List (String × String))
    (o o2 : String) (net : Nat → Net) (url : String) (m : Nat) :
    ∀ remaining attempt backoff,
      retryLoop ⟨b, hs, o⟩ net url m remaining attempt backoff =
      retryLoop ⟨b, hs, o2⟩ net url m remaining attempt backoff := by
  intro remaining
  induction remaining with
  | zero => intro attempt backoff; rfl
  | succ r ih =>
    intro attempt backoff
    rw [retryLoop, retryLoop]
    have hsw : attemptOnce ⟨b, hs, o2⟩ (net attempt) url =
        attemptOnce ⟨b, hs, o⟩ (net attempt) url := rfl
    rw [hsw]
    rcases ha : attemptOnce ⟨b, hs, o⟩ (net attempt) url with e0 | v
    · try dsimp only
      by_cases hc : isCaught e0
      · rw [if_pos hc, if_pos hc]
        by_cases hlt : attempt < m - 1
        · rw [if_pos hlt, if_pos hlt, ih (attempt + 1) (backoff * 2)]
        · rw [if_neg hlt, if_neg hlt]
      · rw [if_neg hc, if_neg hc]
    · rfl

/-- When every page up to 5 yields links and no extraction raises, the loop
visits exactly the pages up to 6 and its last event is the page-6 search. -/
theorem pageLoop_full (sc : Scraper) (env : Env)
    (H2 : ∀ j2 url, ∃ v,
      (sc.extract_product_info (env.extractNet j2) url).result = .ok v) :
    ∀ fuel page i j, 1 ≤ page → page ≤ 6 → 7 ≤ fuel + page →
      (∀ d, page + d ≤ 5 → ∃ l ls,
        sc.get_product_links (env.searchNet (i + d)) "laptop" (page + d) =
          .ok (l :: ls)) →
      ((pageLoop sc env fuel page i j).events.filterMap searchPageOf =
        List.range' page (7 - page)
       ∧ (pageLoop sc env fuel page i j).events.getLast? =
          some (.searchCall "laptop" 6)) := by
  intro fuel
  induction fuel with
  | zero => intro page i j h1 h6 h7 _; omega
  | succ f ih =>
    intro page i j h1 h6 h7 H1
    by_cases hp : page = 6
    · subst hp
      rw [pageLoop]
      rcases h : sc.get_product_links (env.searchNet i) "laptop" 6 with e0 | links
      · exact ⟨rfl, rfl⟩
      · try dsimp only
        rw [if_pos (Or.inr (by omega))]
        exact ⟨rfl, rfl⟩
    · have hp5 : page ≤ 5 := by omega
      obtain ⟨l, ls, hlk⟩ := H1 0 (by omega)
      rw [Nat.add_zero, Nat.add_zero] at hlk
      rw [pageLoop, hlk]
      try dsimp only
      rw [if_neg (by push_neg; exact ⟨by simp, by omega⟩)]
      try dsimp only
      rw [processLinks_ex_none sc env H2 (l :: ls) j]
      try dsimp only
      have ihh := ih (page + 1) (i + 1) (processLinks sc env (l :: ls) j).2.1
        (by omega) (by omega) (by omega)
        (fun d hd => by
          have hx := H1 (d + 1) (by omega)
          rw [show page + (d + 1) = page + 1 + d by omega,
            show i + (d + 1) = i + 1 + d by omega] at hx
          exact hx)
      have hne : (pageLoop sc env f (page + 1) (i + 1)
          (processLinks sc env (l :: ls) j).2.1).events ≠ [] := by
        intro hnil
        have hlen := congrArg List.length ihh.1
        rw [hnil] at hlen
        simp [List.length_range'] at hlen
        omega
      constructor
      · rw [List.filterMap_cons]
        dsimp only [searchPageOf]
        rw [List.filterMap_append,
          List.filterMap_eq_nil_iff.mpr
            (fun e he => (processLinks_shape sc env (l :: ls) j e he).2.1),
          List.nil_append, ihh.1,
          show 7 - page = (7 - (page + 1)) + 1 by omega, List.range'_succ]
      · rw [show Ev.searchCall "laptop" page ::
            ((processLinks sc env (l :: ls) j).1 ++
              (pageLoop sc env f (page + 1) (i + 1)
                (processLinks sc env (l :: ls) j).2.1).events) =
            (Ev.searchCall "laptop" page :: (processLinks sc env (l :: ls) j).1) ++
              (pageLoop sc env f (page + 1) (i + 1)
                (processLinks sc env (l :: ls) j).2.1).events by simp,
          List.getLast?_append_of_ne_nil _ hne]
        exact ihh.2

/-! ## Claims about the driver -/

/-- C2 (code behaviour at the failing input): invoked with query
`"monitor"`, the driver still passes the literal `"laptop"` to every
`get_product_links` call — the first search call uses `"laptop"`, every
search call uses `"laptop"`, and the whole run is identical to the run with
query `"laptop"`. -/
theorem main_query_argument_ignored (an : Option Int) (env : Env) (fuel : Nat)
    (hfuel : 1 ≤ fuel) :
    ((main (some "monitor") an env fuel).events.filterMap searchQueryOf).head? =
      some "laptop"
    ∧ (∀ q ∈ (main (some "monitor") an env fuel).events.filterMap searchQueryOf,
        q = "laptop")
    ∧ main (some "monitor") an env fuel = main (some "laptop") an env fuel := by
  obtain ⟨f, rfl⟩ : ∃ f, fuel = f + 1 := ⟨fuel - 1, by omega⟩
  refine ⟨?_, ?_, rfl⟩
  · rw [main_unfold]
    have hhead := pageLoop_events_head mainScraper env f 1 0 0
    rcases hevs : (pageLoop mainScraper env (f + 1) 1 0 0).events with _ | ⟨e, tail⟩
    · rw [hevs] at hhead
      simp at hhead
    · rw [hevs] at hhead
      simp at hhead
      subst hhead
      rfl
  · intro q hq
    rw [main_unfold] at hq
    replace hq : q ∈ (pageLoop mainScraper env (f + 1) 1 0 0).events.filterMap
      searchQueryOf := hq
    exact pageLoop_queries mainScraper env (f + 1) 1 0 0 q hq

/-- Witness for C2: at a concrete world and query `"monitor"`, the first
search call still uses `"laptop"`. -/
theorem main_query_argument_ignored_witness :
    ((main (some "monitor") (some 1) envFullW 7).events.filterMap
      searchQueryOf).head? = some "laptop" :=
  (main_query_argument_ignored (some 1) envFullW 7 (by omega)).1

/-- C6: the crawl loop terminates: with enough fuel the model never runs
out (the loop exits on an empty link list or on `page_number > 5`, the
literal constant — the run is unchanged by the configured page count), a
link of a page outside 1..5 is never extracted, and on an empty link
sequence the loop stops at once with no further events. -/
theorem driver_loop_literal_bound (aq : Option String) (an an2 : Option Int)
    (env : Env) (fuel : Nat) (hfuel : 6 ≤ fuel) :
    ((main aq an env fuel).exit ≠ .fuelOut)
    ∧ main aq an env fuel = main aq an2 env fuel
    ∧ (∀ p ∈ pagesWithExtracts (main aq an env fuel).events none, 1 ≤ p ∧ p ≤ 5)
    ∧ (∀ (sc : Scraper) (i j page f : Nat),
        sc.get_product_links (env.searchNet i) "laptop" page = .ok [] →
        pageLoop sc env (f + 1) page i j =
          { events := [.searchCall "laptop" page], exit := .normal }) := by
  refine ⟨?_, rfl, ?_, ?_⟩
  · rw [main_unfold]
    exact pageLoop_exit_ne mainScraper env fuel 1 0 0 (by omega) (by omega)
  · intro p hp
    rw [main_unfold] at hp
    replace hp : p ∈ pagesWithExtracts
      (pageLoop mainScraper env fuel 1 0 0).events none := hp
    have := pageLoop_pages_bound mainScraper env fuel 1 0 0 none p (by omega) hp
    exact ⟨by omega, this.2⟩
  · intro sc i j page f h
    exact pageLoop_empty_stop sc env f page i j h

/-- Witness for C6: a concrete run over empty pages terminates normally and
is unchanged by the configured page count. -/
theorem driver_loop_literal_bound_witness :
    (main (some "laptop") (some 3) envEmptyW 6).exit ≠ .fuelOut
    ∧ main (some "laptop") (some 3) envEmptyW 6 =
        main (some "laptop") (some 99) envEmptyW 6 :=
  ⟨(driver_loop_literal_bound (some "laptop") (some 3) (some 99) envEmptyW 6
      (by omega)).1,
   (driver_loop_literal_bound (some "laptop") (some 3) (some 99) envEmptyW 6
      (by omega)).2.1⟩

/-- C8: each run opens exactly one file — `"temp.json"` in write mode,
first — and its remaining events obey the write discipline: every
extraction returning a record is immediately followed by exactly one write
of that record, and writes occur nowhere else (absent results contribute no
write). -/
theorem driver_output_lines (aq : Option String) (an : Option Int)
    (env : Env) (fuel : Nat) :
    (main aq an env fuel).events.head? = some (.openFile "temp.json" "w")
    ∧ (main aq an env fuel).events.filter isOpenEv = [.openFile "temp.json" "w"]
    ∧ Imm (main aq an env fuel).events.tail := by
  rw [main_unfold]
  refine ⟨rfl, ?_, ?_⟩
  · have h1 : (pageLoop mainScraper env fuel 1 0 0).events.filter isOpenEv = [] :=
      List.filter_eq_nil_iff.mpr
        (fun e he => by simp [pageLoop_no_open mainScraper env fuel 1 0 0 e he])
    rw [List.filter_cons_of_pos (by rfl), h1]
  · exact pageLoop_Imm mainScraper env fuel 1 0 0

/-- C9: when pages 1..5 all yield links and no extraction raises, the
driver makes a sixth `get_product_links` call, for page 6, and that call is
the run's last event — nothing is extracted or written from it. -/
theorem sixth_page_fetch_discarded (aq : Option String) (an : Option Int)
    (env : Env) (fuel : Nat) (hfuel : 6 ≤ fuel)
    (H1 : ∀ d, d < 5 → ∃ l ls,
      mainScraper.get_product_links (env.searchNet d) "laptop" (d + 1) =
        .ok (l :: ls))
    (H2 : ∀ j url, ∃ v,
      (mainScraper.extract_product_info (env.extractNet j) url).result = .ok v) :
    (main aq an env fuel).events.filterMap searchPageOf = [1, 2, 3, 4, 5, 6]
    ∧ (main aq an env fuel).events.getLast? = some (.searchCall "laptop" 6) := by
  have h := pageLoop_full mainScraper env H2 fuel 1 0 0 (by omega) (by omega)
    (by omega)
    (fun d hd => by
      have hx := H1 d (by omega)
      rw [show d + 1 = 1 + d by omega] at hx
      simpa using hx)
  rw [main_unfold]
  constructor
  · have h1 := h.1
    replace h1 : List.filterMap searchPageOf
        (pageLoop mainScraper env fuel 1 0 0).events = [1, 2, 3, 4, 5, 6] := by
      rw [h1]
      rfl
    exact h1
  · have h2 := h.2
    have hne : (pageLoop mainScraper env fuel 1 0 0).events ≠ [] := by
      intro hnil
      rw [hnil] at h2
      simp at h2
    show ([Ev.openFile "temp.json" "w"] ++
      (pageLoop mainScraper env fuel 1 0 0).events).getLast? = _
    rw [List.getLast?_append_of_ne_nil _ hne]
    exact h2

/-- Witness for C9: a concrete world with one link on every page. -/
theorem sixth_page_fetch_discarded_witness :
    (main none none envFullW 6).events.filterMap searchPageOf = [1, 2, 3, 4, 5, 6]
    ∧ (main none none envFullW 6).events.getLast? =
        some (.searchCall "laptop" 6) :=
  sixth_page_fetch_discarded none none envFullW 6 (by omega)
    (fun d _ => ⟨"/p", [], rfl⟩)
    (fun j url => ⟨some recW, rfl⟩)

/-- C10: `output_file` is stored but never read: both operations return the
same results on two `Scraper` values differing only in `output_file`; and
while the driver constructs its `Scraper` with `"test.json"`, the run
writes its output through the fixed name `"temp.json"`. -/
theorem output_file_never_read (b : String) (hs : List (String × String))
    (o o2 : String) (net1 : Net) (net : Nat → Net) (q : String) (p : Nat)
    (url : String) (aq : Option String) (an : Option Int) (env : Env)
    (fuel : Nat) :
    Scraper.get_product_links ⟨b, hs, o⟩ net1 q p =
      Scraper.get_product_links ⟨b, hs, o2⟩ net1 q p
    ∧ Scraper.extract_product_info ⟨b, hs, o⟩ net url =
        Scraper.extract_product_info ⟨b, hs, o2⟩ net url
    ∧ mainScraper.output_file = "test.json"
    ∧ (main aq an env fuel).events.head? = some (.openFile "temp.json" "w") :=
  ⟨rfl, retryLoop_output_irrel b hs o o2 net url 5 5 0 3, rfl, rfl⟩

end Scrape

